import Mathlib

/-!
Shallow embedding of the deployment blocking-window evaluator of
`src/change-control-lambda/lib/time-window.ts` (aws-delivlib), together with
theorems about the properties the specification states for it.

Modelling choices:
* A JavaScript `Date` is its millisecond timestamp, an `Int`.  A field whose
  runtime value may be absent (`undefined`) is an `Option Int`; the JavaScript
  relational operators `>=`/`<=` convert `undefined` to `NaN` and every
  comparison with `NaN` is `false`, which `jsLE` reproduces by returning
  `false` whenever either side is `none`.
* The event collection returned by the iCal parsing collaborator
  (`ical.parseICS`, out of scope per the spec) is an association list from the
  feed-assigned uuid to the event; `Object.values` enumerates it in native
  (insertion) order, i.e. `List.map Prod.snd`.
* `shouldBlockPipeline` is modelled from the point after parsing: it receives
  the parsed `Events` collection, `now` in milliseconds, and the margin in
  seconds, exactly as the TypeScript body uses them.
-/

namespace TimeWindow

/-- A calendar event describing a blocked time window, as parsed from the
iCal feed.  `start`/`end`/`dtstamp` are millisecond timestamps; `none` models
a missing (`undefined`) date on a malformed record. -/
structure CalendarEvent where
  summary : String
  start : Option Int
  «end» : Option Int
  dtstamp : Option Int
  type : String
  params : List String
  datetype : String
deriving DecidableEq

/-- The parsed event collection: uuid-keyed association list, in the feed
parser's native iteration order. -/
abbrev Events := List (String × CalendarEvent)

/-- JavaScript `a <= b` on possibly-absent dates: comparisons involving
`undefined` (i.e. `NaN`) are `false`. -/
def jsLE : Option Int → Option Int → Bool
  | some a, some b => a ≤ b
  | _, _ => false

/-- `isBetween(date, left, right)`: `date >= left && date <= right`. -/
def isBetween (date left right : Option Int) : Bool :=
  jsLE left date && jsLE date right

/-- `happensBetween(event, fromDate, toDate)`: the four-clause conflict
predicate between the event interval and the search window. -/
def happensBetween (event : CalendarEvent) (fromDate toDate : Option Int) : Bool :=
  isBetween fromDate event.start event.«end»
    || isBetween toDate event.start event.«end»
    || isBetween event.start fromDate toDate
    || isBetween event.«end» fromDate toDate

/-- `containingEventsWithMargin(events, date, advanceMarginSec)`:
`bufferedDate = date + advanceMarginSec * 1000` ms, then keep the `VEVENT`
entries, in native order, that conflict with `[date, bufferedDate]`. -/
def containingEventsWithMargin (events : Events) (date : Int)
    (advanceMarginSec : Int) : List CalendarEvent :=
  let bufferedDate : Int := date + advanceMarginSec * 1000
  (((events.map Prod.snd).filter (fun e => e.type == "VEVENT")).filter
    (fun e => happensBetween e (some date) (some bufferedDate)))

/-- `shouldBlockPipeline(icalData, now, advanceMarginSec)` after the parsing
collaborator has produced `events`: the first conflicting event, or
`undefined` (here `none`) when there is none. -/
def shouldBlockPipeline (events : Events) (now : Int)
    (advanceMarginSec : Int) : Option CalendarEvent :=
  let blocks := containingEventsWithMargin events now advanceMarginSec
  if blocks.length > 0 then blocks[0]? else none

/-- Two events agreeing on the decision-relevant fields (start, end, type) but
possibly differing in the informational ones (summary, dtstamp, params). -/
def agrees (a b : CalendarEvent) : Prop :=
  a.start = b.start ∧ a.«end» = b.«end» ∧ a.type = b.type

/-- `agrees` lifted to the evaluator's optional result. -/
def optAgrees : Option CalendarEvent → Option CalendarEvent → Prop
  | some a, some b => agrees a b
  | none, none => True
  | _, _ => False

/-! ### Concrete data used by witnesses and counterexamples -/

/-- A well-formed blocking event spanning `[0 ms, 10000 ms]`. -/
def evBlock : CalendarEvent :=
  ⟨"deploy freeze", some 0, some 10000, none, "VEVENT", [], "date-time"⟩

/-- A collection holding only `evBlock`. -/
def evsBlock : Events := [("uid-1", evBlock)]

/-- A degenerate event with `start > end`. -/
def evDegen : CalendarEvent :=
  ⟨"degenerate", some 5000, some 3000, none, "VEVENT", [], "date-time"⟩

/-- A collection holding only `evDegen`. -/
def evsDegen : Events := [("uid-d", evDegen)]

/-- A malformed record lacking its start instant. -/
def evNoStart : CalendarEvent :=
  ⟨"missing start", none, some 5000, none, "VEVENT", [], "date-time"⟩

/-- A collection holding only `evNoStart`. -/
def evsNoStart : Events := [("uid-m", evNoStart)]

/-- The same window as `evBlock` with different informational fields and a
different uuid. -/
def evInfo : CalendarEvent :=
  ⟨"other summary", some 0, some 10000, some 42, "VEVENT", ["x"], "date-time"⟩

/-- A collection holding only `evInfo`. -/
def evsInfo : Events := [("uid-2", evInfo)]

/-! ### Shared helper lemmas -/

theorem jsLE_none_left (b : Option Int) : jsLE none b = false := by
  cases b <;> rfl

theorem jsLE_none_right (a : Option Int) : jsLE a none = false := by
  cases a <;> rfl

/-- The head of a filtered list is the first element satisfying the
predicate. -/
theorem head?_filter_eq_find? (p : CalendarEvent → Bool) (l : List CalendarEvent) :
    (l.filter p).head? = l.find? p := by
  induction l with
  | nil => rfl
  | cons a l ih =>
    by_cases h : p a = true
    · simp [List.filter, List.find?, h]
    · simp only [Bool.not_eq_true] at h
      simp [List.filter, List.find?, h, ih]

/-- Composing the two filters of `containingEventsWithMargin`. -/
theorem filter_filter_eq (p q : CalendarEvent → Bool) (l : List CalendarEvent) :
    (l.filter p).filter q = l.filter (fun e => p e && q e) := by
  induction l with
  | nil => rfl
  | cons a l ih =>
    by_cases hp : p a = true
    · by_cases hq : q a = true
      · simp [List.filter, hp, hq, ih]
      · simp only [Bool.not_eq_true] at hq
        simp [List.filter, hp, hq, ih]
    · simp only [Bool.not_eq_true] at hp
      simp [List.filter, hp, ih]

/-- The conditional of `shouldBlockPipeline` is just `List.head?`. -/
theorem shouldBlockPipeline_eq_head? (events : Events) (now m : Int) :
    shouldBlockPipeline events now m = (containingEventsWithMargin events now m).head? := by
  unfold shouldBlockPipeline
  cases containingEventsWithMargin events now m with
  | nil => rfl
  | cons a l => simp

/-- `shouldBlockPipeline` is the first entry, in native iteration order, that
is a `VEVENT` and conflicts with the search window. -/
theorem shouldBlockPipeline_find? (events : Events) (now m : Int) :
    shouldBlockPipeline events now m
      = (events.map Prod.snd).find?
          (fun e => e.type == "VEVENT"
            && happensBetween e (some now) (some (now + m * 1000))) := by
  rw [shouldBlockPipeline_eq_head?]
  unfold containingEventsWithMargin
  rw [filter_filter_eq, head?_filter_eq_find?]

/-- Membership characterisation of a blocked verdict. -/
theorem shouldBlockPipeline_isSome_iff (events : Events) (now m : Int) :
    (shouldBlockPipeline events now m).isSome = true
      ↔ ∃ e ∈ events.map Prod.snd, e.type = "VEVENT"
          ∧ happensBetween e (some now) (some (now + m * 1000)) = true := by
  rw [shouldBlockPipeline_find?]
  rw [Option.isSome_iff_exists]
  constructor
  · rintro ⟨e, he⟩
    have hmem := List.mem_of_find?_eq_some he
    have hpred := List.find?_some he
    simp only [Bool.and_eq_true, beq_iff_eq] at hpred
    exact ⟨e, hmem, hpred.1, hpred.2⟩
  · rintro ⟨e, hmem, hty, hpb⟩
    have : (events.map Prod.snd).find?
        (fun e => e.type == "VEVENT"
          && happensBetween e (some now) (some (now + m * 1000))) ≠ none := by
      intro hnone
      have := List.find?_eq_none.mp hnone e hmem
      simp [hty, hpb] at this
    rcases Option.ne_none_iff_exists.mp this with ⟨e', he'⟩
    exact ⟨e', he'.symm⟩

/-- With both bounds present, the four-clause predicate is the interval
overlap condition (general helper behind several claims). -/
theorem happensBetween_some_iff (e : CalendarEvent) (s t now b : Int)
    (hs : e.start = some s) (ht : e.«end» = some t) :
    happensBetween e (some now) (some b) = true
      ↔ ((s ≤ now ∧ now ≤ t) ∨ (s ≤ b ∧ b ≤ t)
          ∨ (now ≤ s ∧ s ≤ b) ∨ (now ≤ t ∧ t ≤ b)) := by
  simp only [happensBetween, isBetween, jsLE, hs, ht, Bool.or_eq_true,
    Bool.and_eq_true, decide_eq_true_eq]
  tauto

/-- Growing the window preserves a conflict, for any event shape. -/
theorem happensBetween_mono (e : CalendarEvent) (now m1 m2 : Int)
    (h0 : 0 ≤ m1) (h12 : m1 ≤ m2)
    (h : happensBetween e (some now) (some (now + m1 * 1000)) = true) :
    happensBetween e (some now) (some (now + m2 * 1000)) = true := by
  have hmul : m1 * 1000 ≤ m2 * 1000 := by nlinarith
  have hmul0 : 0 ≤ m1 * 1000 := by positivity
  cases hstart : e.start with
  | none =>
    cases hend : e.«end» with
    | none =>
      simp only [happensBetween, isBetween, hstart, hend, jsLE_none_left,
        jsLE_none_right, Bool.and_false, Bool.false_and, Bool.or_false] at h
      exact absurd h (by decide)
    | some t =>
      simp only [happensBetween, isBetween, hstart, hend, jsLE, jsLE_none_left,
        jsLE_none_right, Bool.and_false, Bool.false_and, Bool.or_eq_true,
        Bool.and_eq_true, decide_eq_true_eq, Bool.false_eq_true, false_or] at h ⊢
      omega
  | some s =>
    cases hend : e.«end» with
    | none =>
      simp only [happensBetween, isBetween, hstart, hend, jsLE, jsLE_none_left,
        jsLE_none_right, Bool.and_false, Bool.false_and, Bool.or_eq_true,
        Bool.and_eq_true, decide_eq_true_eq, Bool.false_eq_true, false_or,
        or_false] at h ⊢
      omega
    | some t =>
      simp only [happensBetween, isBetween, hstart, hend, jsLE, Bool.or_eq_true,
        Bool.and_eq_true, decide_eq_true_eq] at h ⊢
      omega

/-- Events agreeing on start, end and type conflict identically. -/
theorem happensBetween_congr (a b : CalendarEvent) (f t : Option Int)
    (h : agrees a b) : happensBetween a f t = happensBetween b f t := by
  obtain ⟨h1, h2, _⟩ := h
  simp [happensBetween, h1, h2]

/-- `find?` over decision-equivalent lists returns decision-related results. -/
theorem find?_congr_agrees (now b : Int) (l1 l2 : List CalendarEvent)
    (h : List.Forall₂ agrees l1 l2) :
    optAgrees
      (l1.find? (fun e => e.type == "VEVENT"
        && happensBetween e (some now) (some b)))
      (l2.find? (fun e => e.type == "VEVENT"
        && happensBetween e (some now) (some b))) := by
  induction h with
  | nil => trivial
  | cons hab htl ih =>
    rename_i a a' l l'
    have hpred : (a.type == "VEVENT" && happensBetween a (some now) (some b))
        = (a'.type == "VEVENT" && happensBetween a' (some now) (some b)) := by
      rw [happensBetween_congr a a' (some now) (some b) hab, hab.2.2]
    by_cases hp : (a'.type == "VEVENT" && happensBetween a' (some now) (some b)) = true
    · simp only [List.find?, hpred, hp]
      exact hab
    · simp only [Bool.not_eq_true] at hp
      simp only [List.find?, hpred, hp]
      exact ih

/-- `optAgrees` results answer blocked/not-blocked identically. -/
theorem optAgrees_isSome (o1 o2 : Option CalendarEvent) (h : optAgrees o1 o2) :
    o1.isSome = o2.isSome := by
  cases o1 <;> cases o2 <;> first | rfl | exact h.elim

/-- Pairwise-agreeing collections have pairwise-agreeing value lists. -/
theorem forall₂_map_snd (ev1 ev2 : Events)
    (h : List.Forall₂ (fun kv1 kv2 => agrees kv1.2 kv2.2) ev1 ev2) :
    List.Forall₂ agrees (ev1.map Prod.snd) (ev2.map Prod.snd) := by
  induction h with
  | nil => exact List.Forall₂.nil
  | cons hab _ ih => exact List.Forall₂.cons hab ih

/-- Restricting the collection to VEVENT entries commutes with taking
values. -/
theorem map_snd_filter_type (events : Events) :
    (events.filter (fun kv => kv.2.type == "VEVENT")).map Prod.snd
      = (events.map Prod.snd).filter (fun e => e.type == "VEVENT") := by
  induction events with
  | nil => rfl
  | cons kv l ih =>
    by_cases h : (kv.2.type == "VEVENT") = true
    · simp [List.filter, h, ih]
    · simp only [Bool.not_eq_true] at h
      simp [List.filter, h, ih]

/-- Pre-filtering by the first conjunct does not change `find?` of a
conjunction. -/
theorem find?_filter_first (p q : CalendarEvent → Bool) (l : List CalendarEvent) :
    (l.filter p).find? (fun e => p e && q e) = l.find? (fun e => p e && q e) := by
  induction l with
  | nil => rfl
  | cons a l ih =>
    by_cases hp : p a = true
    · by_cases hq : q a = true
      · simp [List.filter, List.find?, hp, hq]
      · simp only [Bool.not_eq_true] at hq
        simp [List.filter, List.find?, hp, hq, ih]
    · simp only [Bool.not_eq_true] at hp
      simp [List.filter, List.find?, hp, ih]

/-! ### C1 -/

/-- C1: for an event with both bounds present, `start ≤ end`, and a
non-negative margin, the four-clause conflict predicate holds iff the interval
overlap condition `start ≤ bufferedNow ∧ now ≤ end` holds, where
`bufferedNow = now + margin` (seconds, i.e. `margin * 1000` ms). -/
theorem happensBetween_iff_overlap (e : CalendarEvent) (s t now margin : Int)
    (hs : e.start = some s) (ht : e.«end» = some t)
    (hst : s ≤ t) (hm : 0 ≤ margin) :
    happensBetween e (some now) (some (now + margin * 1000)) = true
      ↔ (s ≤ now + margin * 1000 ∧ now ≤ t) := by
  have hm1000 : 0 ≤ margin * 1000 := by positivity
  rw [happensBetween_some_iff e s t now (now + margin * 1000) hs ht]
  omega

/-- Witness for C1 at the concrete event `[0, 10000]` with `now = 5000`,
`margin = 2` s. -/
theorem happensBetween_iff_overlap_witness :
    happensBetween evBlock (some 5000) (some (5000 + 2 * 1000)) = true
      ↔ ((0 : Int) ≤ 5000 + 2 * 1000 ∧ (5000 : Int) ≤ 10000) :=
  happensBetween_iff_overlap evBlock 0 10000 5000 2 rfl rfl (by decide) (by decide)

/-! ### C2 -/

/-- C2: the code performs no validation of `advanceMarginSec`.  Called with
the negative margin `-1` it still computes `bufferedNow = now - 1000` ms and
produces a verdict — here the blocking event itself — instead of failing
validation with no verdict as the specification requires. -/
theorem negative_margin_gives_verdict :
    shouldBlockPipeline evsBlock 5000 (-1) = some evBlock := by decide

/-! ### C3 -/

/-- C3 counterexample: for the collection holding only the degenerate event
`[5000, 3000]` and `now = 5000`, zero-margin evaluation returns a blocking
event even though no event of the collection has `start ≤ now ≤ end` — so the
unrestricted equivalence claimed for every collection is false. -/
theorem zero_margin_containment_cex :
    ¬ ((shouldBlockPipeline evsDegen 5000 0).isSome = true
        ↔ ∃ e ∈ evsDegen.map Prod.snd, e.type = "VEVENT"
            ∧ ∃ s t, e.start = some s ∧ e.«end» = some t
                ∧ s ≤ (5000 : Int) ∧ (5000 : Int) ≤ t) := by
  intro h
  have hblocked : (shouldBlockPipeline evsDegen 5000 0).isSome = true := by decide
  rcases h.mp hblocked with ⟨e, hmem, _, s, t, hs, ht, h1, h2⟩
  have he : e = evDegen := by
    simpa [evsDegen] using hmem
  subst he
  have hs' : s = 5000 := by
    simpa [evDegen] using hs.symm
  have ht' : t = 3000 := by
    simpa [evDegen] using ht.symm
  omega

/-- C3 (amended): over collections whose VEVENT entries are well-formed
(both bounds present, `start ≤ end`), zero-margin evaluation blocks iff some
VEVENT entry contains `now`. -/
theorem zero_margin_containment (events : Events) (now : Int)
    (hwf : ∀ kv ∈ events, kv.2.type = "VEVENT" →
      ∃ s t, kv.2.start = some s ∧ kv.2.«end» = some t ∧ s ≤ t) :
    (shouldBlockPipeline events now 0).isSome = true
      ↔ ∃ kv ∈ events, kv.2.type = "VEVENT"
          ∧ ∃ s t, kv.2.start = some s ∧ kv.2.«end» = some t
              ∧ s ≤ now ∧ now ≤ t := by
  rw [shouldBlockPipeline_isSome_iff]
  constructor
  · rintro ⟨e, hmem, hty, hpb⟩
    rcases List.mem_map.mp hmem with ⟨kv, hkv, hsnd⟩
    rcases hwf kv hkv (hsnd ▸ hty) with ⟨s, t, hs, ht, hst⟩
    have hpb' := (happensBetween_some_iff e s t now (now + 0 * 1000)
      (hsnd ▸ hs) (hsnd ▸ ht)).mp hpb
    refine ⟨kv, hkv, hsnd ▸ hty, s, t, hs, ht, ?_⟩
    omega
  · rintro ⟨kv, hkv, hty, s, t, hs, ht, h1, h2⟩
    refine ⟨kv.2, List.mem_map.mpr ⟨kv, hkv, rfl⟩, hty, ?_⟩
    rw [happensBetween_some_iff kv.2 s t now (now + 0 * 1000) hs ht]
    omega

/-- Witness for the amended C3 on the well-formed collection `evsBlock` at
`now = 5000`. -/
theorem zero_margin_containment_witness :
    (shouldBlockPipeline evsBlock 5000 0).isSome = true
      ↔ ∃ kv ∈ evsBlock, kv.2.type = "VEVENT"
          ∧ ∃ s t, kv.2.start = some s ∧ kv.2.«end» = some t
              ∧ s ≤ (5000 : Int) ∧ (5000 : Int) ≤ t := by
  refine zero_margin_containment evsBlock 5000 ?_
  intro kv hkv _
  have : kv = ("uid-1", evBlock) := by simpa [evsBlock] using hkv
  subst this
  exact ⟨0, 10000, rfl, rfl, by decide⟩

/-! ### C4 -/

/-- C4: for a fixed collection and `now`, and margins `0 ≤ m1 ≤ m2`, a
blocked verdict at `m1` stays blocked at `m2`. -/
theorem margin_monotone (events : Events) (now m1 m2 : Int)
    (h0 : 0 ≤ m1) (h12 : m1 ≤ m2)
    (hb : (shouldBlockPipeline events now m1).isSome = true) :
    (shouldBlockPipeline events now m2).isSome = true := by
  rw [shouldBlockPipeline_isSome_iff] at hb ⊢
  obtain ⟨e, hmem, hty, hpb⟩ := hb
  exact ⟨e, hmem, hty, happensBetween_mono e now m1 m2 h0 h12 hpb⟩

/-- Witness for C4: blocked at margin 0 stays blocked at margin 1. -/
theorem margin_monotone_witness :
    (shouldBlockPipeline evsBlock 5000 1).isSome = true :=
  margin_monotone evsBlock 5000 0 1 (by decide) (by decide) (by decide)

/-! ### C5 -/

/-- C5: the evaluator returns exactly the first conflicting VEVENT in native
iteration order (a `find?` over the value list); its result is always a member
of the conflicting set; and it returns the no-block value `none` exactly when
no entry conflicts. -/
theorem first_conflicting_selected (events : Events) (now m : Int) :
    (shouldBlockPipeline events now m
        = (events.map Prod.snd).find?
            (fun e => e.type == "VEVENT"
              && happensBetween e (some now) (some (now + m * 1000))))
      ∧ (shouldBlockPipeline events now m).all
          (fun e => decide (e ∈ containingEventsWithMargin events now m)) = true
      ∧ (shouldBlockPipeline events now m = none
          ↔ containingEventsWithMargin events now m = []) := by
  refine ⟨shouldBlockPipeline_find? events now m, ?_, ?_⟩
  · rw [shouldBlockPipeline_eq_head?]
    cases hbl : containingEventsWithMargin events now m with
    | nil => rfl
    | cons a l =>
      simp [Option.all, List.head?]
  · rw [shouldBlockPipeline_eq_head?]
    cases containingEventsWithMargin events now m with
    | nil => simp
    | cons a l => simp

/-! ### C6 -/

/-- C6: non-VEVENT entries never affect the verdict — evaluating the full
collection equals evaluating its restriction to VEVENT entries — and any
returned event is a VEVENT. -/
theorem nonevents_ignored (events : Events) (now m : Int) :
    shouldBlockPipeline events now m
        = shouldBlockPipeline (events.filter (fun kv => kv.2.type == "VEVENT")) now m
      ∧ (shouldBlockPipeline events now m).all (fun e => e.type == "VEVENT") = true := by
  constructor
  · rw [shouldBlockPipeline_find?, shouldBlockPipeline_find?, map_snd_filter_type,
      find?_filter_first]
  · rw [shouldBlockPipeline_find?]
    cases hf : (events.map Prod.snd).find?
        (fun e => e.type == "VEVENT"
          && happensBetween e (some now) (some (now + m * 1000))) with
    | none => rfl
    | some e =>
      have := List.find?_some hf
      simp only [Bool.and_eq_true] at this
      simp [Option.all, this.1]

/-! ### C7 -/

/-- C7 counterexample: a VEVENT record lacking its start instant, whose end
instant `5000` lies inside the search window, is returned as the blocking
event — contradicting the claim that records missing `start` or `end` are
never returned. -/
theorem malformed_returned_cex :
    shouldBlockPipeline evsNoStart 5000 0 = some evNoStart
      ∧ evNoStart.start = none := by
  constructor
  · decide
  · rfl

/-- C7 (amended): the evaluator is a total function (it never raises), and a
record missing BOTH bounds is never returned as the blocking event; a record
missing exactly one bound can still be returned when its present bound lies
in the search window. -/
theorem malformed_not_both_missing (events : Events) (now m : Int)
    (e : CalendarEvent) (h : shouldBlockPipeline events now m = some e) :
    e.start ≠ none ∨ e.«end» ≠ none := by
  rw [shouldBlockPipeline_find?] at h
  have hpred := List.find?_some h
  simp only [Bool.and_eq_true] at hpred
  by_contra hcon
  push_neg at hcon
  obtain ⟨h1, h2⟩ := hcon
  have := hpred.2
  simp only [happensBetween, isBetween, h1, h2, jsLE_none_left, jsLE_none_right,
    Bool.and_false, Bool.false_and, Bool.or_false, Bool.false_eq_true] at this

/-- Witness for the amended C7 at a call that returns `evBlock`. -/
theorem malformed_not_both_missing_witness :
    evBlock.start ≠ none ∨ evBlock.«end» ≠ none :=
  malformed_not_both_missing evsBlock 5000 0 evBlock (by decide)

/-! ### C8 -/

/-- C8: a collection containing a VEVENT whose interval contains `now`
is blocked for every non-negative margin (clause 1 is margin-independent). -/
theorem containing_event_blocks (events : Events) (now m s t : Int)
    (e : CalendarEvent) (hmem : e ∈ events.map Prod.snd)
    (hty : e.type = "VEVENT") (hs : e.start = some s) (ht : e.«end» = some t)
    (h1 : s ≤ now) (h2 : now ≤ t) (_hm : 0 ≤ m) :
    (shouldBlockPipeline events now m).isSome = true := by
  rw [shouldBlockPipeline_isSome_iff]
  refine ⟨e, hmem, hty, ?_⟩
  rw [happensBetween_some_iff e s t now (now + m * 1000) hs ht]
  exact Or.inl ⟨h1, h2⟩

/-- Witness for C8: `evBlock` contains `now = 6000`; margin 3 blocks. -/
theorem containing_event_blocks_witness :
    (shouldBlockPipeline evsBlock 6000 3).isSome = true :=
  containing_event_blocks evsBlock 6000 3 0 10000 evBlock (by decide) rfl rfl rfl
    (by decide) (by decide) (by decide)

/-! ### C9 -/

/-- C9: two collections agreeing entrywise on start, end and type (in the same
iteration order) but differing arbitrarily in summary, dtstamp, params and
uuid yield decision-related verdicts: the returned events (if any) agree on
the decision fields, and the blocked/not-blocked answers coincide. -/
theorem verdict_ignores_informational (ev1 ev2 : Events) (now m : Int)
    (h : List.Forall₂ (fun kv1 kv2 => agrees kv1.2 kv2.2) ev1 ev2) :
    optAgrees (shouldBlockPipeline ev1 now m) (shouldBlockPipeline ev2 now m)
      ∧ (shouldBlockPipeline ev1 now m).isSome
          = (shouldBlockPipeline ev2 now m).isSome := by
  have hrel : optAgrees (shouldBlockPipeline ev1 now m)
      (shouldBlockPipeline ev2 now m) := by
    rw [shouldBlockPipeline_find?, shouldBlockPipeline_find?]
    exact find?_congr_agrees now (now + m * 1000) (ev1.map Prod.snd)
      (ev2.map Prod.snd) (forall₂_map_snd ev1 ev2 h)
  exact ⟨hrel, optAgrees_isSome _ _ hrel⟩

/-- Witness for C9 on `evsBlock` vs `evsInfo`, which differ only in summary,
dtstamp, params and uuid. -/
theorem verdict_ignores_informational_witness :
    optAgrees (shouldBlockPipeline evsBlock 5000 3600)
        (shouldBlockPipeline evsInfo 5000 3600)
      ∧ (shouldBlockPipeline evsBlock 5000 3600).isSome
          = (shouldBlockPipeline evsInfo 5000 3600).isSome :=
  verdict_ignores_informational evsBlock evsInfo 5000 3600
    (List.Forall₂.cons ⟨rfl, rfl, rfl⟩ List.Forall₂.nil)

/-! ### C10 -/

/-- C10: for a degenerate event with `start > end` and a non-negative margin,
the conflict predicate holds iff `start` or `end` lies in
`[now, now + margin]`; the two point-in-event clauses are vacuous. -/
theorem degenerate_happensBetween (e : CalendarEvent) (s t now m : Int)
    (hs : e.start = some s) (ht : e.«end» = some t)
    (hst : t < s) (hm : 0 ≤ m) :
    happensBetween e (some now) (some (now + m * 1000)) = true
      ↔ ((now ≤ s ∧ s ≤ now + m * 1000) ∨ (now ≤ t ∧ t ≤ now + m * 1000)) := by
  rw [happensBetween_some_iff e s t now (now + m * 1000) hs ht]
  omega

/-- Witness for C10 on the degenerate event `[5000, 3000]`, `now = 4000`,
margin 2 s. -/
theorem degenerate_happensBetween_witness :
    happensBetween evDegen (some 4000) (some (4000 + 2 * 1000)) = true
      ↔ (((4000 : Int) ≤ 5000 ∧ (5000 : Int) ≤ 4000 + 2 * 1000)
          ∨ ((4000 : Int) ≤ 3000 ∧ (3000 : Int) ≤ 4000 + 2 * 1000)) :=
  degenerate_happensBetween evDegen 5000 3000 4000 2 rfl rfl (by decide) (by decide)

end TimeWindow
